import Mathlib

/-!
Verification of the swagger-to-CUE contract generator
(scripts/import_swagger_to_cue.py).

The script is shallowly embedded: Python dictionaries become ordered
association lists over an inductive `Json` type (Python 3.7+ dicts preserve
insertion order), pure functions become Lean functions, and the places where
the Python code would raise an exception become `Except.error` results.
Corners of the input space that the tool is never run on (for example a
non-string value under a "$ref" key, which would make the Python code raise)
are mapped to the unknown-type marker and noted at their definition sites.
-/

set_option maxRecDepth 100000
set_option linter.unusedVariables false

/-- A parsed JSON value, as produced by json.loads.  Objects are ordered
association lists, mirroring Python dict insertion order. -/
inductive Json where
  | null : Json
  | b : Bool → Json
  | i : Int → Json
  | s : String → Json
  | arr : List Json → Json
  | obj : List (String × Json) → Json

/-- Dictionary lookup: the value stored under key k (Python d.get(k) / d[k]).
Keys in an object built from json.loads are unique; lookup returns the first
match. -/
def Json.lookup : List (String × Json) → String → Option Json
  | [], _ => none
  | (k', v) :: rest, k => if k' = k then some v else Json.lookup rest k

/-- Python truthiness of a JSON value. -/
def Json.truthy : Json → Bool
  | .null => false
  | .b x => x
  | .i n => n != 0
  | .s str => str != ""
  | .arr xs => !xs.isEmpty
  | .obj kvs => !kvs.isEmpty

/-- Python dict assignment d[k] = v: updates the value in place when the key
exists (keeping its original position), appends a new binding otherwise. -/
def dinsert : List (String × Json) → String → Json → List (String × Json)
  | [], k, v => [(k, v)]
  | (k', v') :: rest, k, v =>
    if k' = k then (k', v) :: rest else (k', v') :: dinsert rest k v

/-- ASCII digit test (the characters matched by [0-9]). -/
def isAsciiDigit (c : Char) : Bool := '0' ≤ c && c ≤ '9'

/-- ASCII letter test (the characters matched by [A-Za-z]). -/
def isAsciiAlpha (c : Char) : Bool :=
  ('A' ≤ c && c ≤ 'Z') || ('a' ≤ c && c ≤ 'z')

/-- ASCII alphanumeric test (the characters matched by [0-9A-Za-z]). -/
def isAsciiAlnum (c : Char) : Bool := isAsciiDigit c || isAsciiAlpha c

/-- re.sub(r"[^0-9A-Za-z]+", rep, –): replaces every maximal run of
non-alphanumeric characters by the single character rep.  The boolean flag
records whether the previous character belonged to such a run. -/
def collapseRuns (rep : Char) : Bool → List Char → List Char
  | _, [] => []
  | prevNon, c :: rest =>
    if isAsciiAlnum c then c :: collapseRuns rep false rest
    else if prevNon then collapseRuns rep true rest
    else rep :: collapseRuns rep true rest

/-- str.strip("_"): removes leading and trailing underscores. -/
def stripUnder (cs : List Char) : List Char :=
  ((cs.dropWhile (fun c => c = '_')).reverse.dropWhile (fun c => c = '_')).reverse

/-- cue_ident from the script: replaces non-alphanumeric runs by "_", strips
leading/trailing underscores, substitutes "schema" for an empty result and
guards a leading digit with the "schema_" marker. -/
def cue_ident (name : String) : String :=
  let cs := stripUnder (collapseRuns '_' false name.data)
  let cs := if cs = [] then "schema".data else cs
  let cs :=
    match cs with
    | c :: _ => if isAsciiDigit c then "schema_".data ++ cs else cs
    | [] => cs
  String.mk cs

/-- ref_to_ident from the script: ref.split("/", 3)[-1] applied to a local
component reference keeps everything after the third slash, which for a
string starting with "#/components/schemas/" is exactly the remainder after
that marker. -/
def ref_to_ident (ref : String) : String :=
  if "#/components/schemas/".data.isPrefixOf ref.data then
    cue_ident (String.mk (ref.data.drop "#/components/schemas/".data.length))
  else cue_ident ref

/-- Python str.title() restricted to ASCII-alphanumeric-plus-space input (the
only shape it is applied to after the regex substitution): a letter is
uppercased when the previous character is not a letter and lowercased
otherwise; digits and spaces pass through and break words. -/
def pyTitle : Bool → List Char → List Char
  | _, [] => []
  | prevAlpha, c :: rest =>
    if isAsciiAlpha c then
      (if prevAlpha then c.toLower else c.toUpper) :: pyTitle true rest
    else c :: pyTitle false rest

/-- The name transform of op_name_from: non-alphanumeric runs to spaces,
title-case, then remove all spaces. -/
def transformName (str : String) : String :=
  String.mk ((pyTitle false (collapseRuns ' ' false str.data)).filter
    (fun c => c ≠ ' '))

/-- The base name produced by op_name_from before registry lookup: summary if
non-empty, else "method path"; retried on "method path" when the transform is
empty; the literal "Operation" when still empty. -/
def base_name (path method summary : String) : String :=
  let b := if summary = "" then method ++ " " ++ path else summary
  let s0 := transformName b
  let s1 := if s0 = "" then transformName (method ++ " " ++ path) else s0
  if s1 = "" then "Operation" else s1

/-- Lookup in the name registry (Python: s in used / used[s]). -/
def lookupNat : List (String × Nat) → String → Option Nat
  | [], _ => none
  | (k, v) :: rest, str => if k = str then some v else lookupNat rest str

/-- Registry update used[s] = v (in-place value update, position kept). -/
def setNat : List (String × Nat) → String → Nat → List (String × Nat)
  | [], k, v => [(k, v)]
  | (k', v') :: rest, k, v =>
    if k' = k then (k', v) :: rest else (k', v') :: setNat rest k v

/-- op_name_from from the script.  The tag argument is accepted and unused,
as in the source.  Returns the produced name together with the updated
registry (the Python code mutates the dict passed in). -/
def op_name_from (path method summary tag : String)
    (used : List (String × Nat)) : String × List (String × Nat) :=
  let s := base_name path method summary
  match lookupNat used s with
  | some n => (s ++ toString (n + 1), setNat used s (n + 1))
  | none => (s, used ++ [(s, 0)])

/-- Substring test needle in hay (Python: needle in hay). -/
def containsSub (needle : List Char) : List Char → Bool
  | [] => needle = []
  | c :: t => needle.isPrefixOf (c :: t) || containsSub needle t

/-- PUBLIC_HINTS from the script. -/
def PUBLIC_HINTS : List String :=
  ["login", "register", "sign up", "signup", "refresh", "password",
   "reset", "google", "oauth"]

/-- str.lower() on the ASCII range (the keyword hints are all ASCII). -/
def strLower (str : String) : String := String.mk (str.data.map Char.toLower)

/-- str.upper() on the ASCII range (HTTP method names are ASCII). -/
def strUpper (str : String) : String := String.mk (str.data.map Char.toUpper)

/-- is_public from the script: lowercase the space-joined summary, path and
tag, and test each hint for substring occurrence. -/
def is_public (summary path tag : String) : Bool :=
  let hay := strLower (summary ++ " " ++ path ++ " " ++ tag)
  PUBLIC_HINTS.any (fun h => containsSub h.data hay.data)

/-- "  " * n: the indentation emitted at nesting depth n. -/
def pad (n : Nat) : String := String.join (List.replicate n "  ")

mutual
/-- Structural size of a JSON value, used as recursion fuel for the schema
translator: every child reachable by the translator is strictly smaller. -/
def jsize : Json → Nat
  | .null => 1
  | .b _ => 1
  | .i _ => 1
  | .s _ => 1
  | .arr xs => 1 + jsizeL xs
  | .obj kvs => 1 + jsizeKV kvs

/-- Structural size of a JSON array body. -/
def jsizeL : List Json → Nat
  | [] => 1
  | x :: xs => 1 + jsize x + jsizeL xs

/-- Structural size of a JSON object body. -/
def jsizeKV : List (String × Json) → Nat
  | [] => 1
  | (_, v) :: rest => 1 + jsize v + jsizeKV rest
end

/-- Monadic map over Option, written out so that it unfolds by plain
structural recursion (a list comprehension in the Python source, where the
one possible failure is running out of recursion fuel in this embedding). -/
def omapM (f : α → Option β) : List α → Option (List β)
  | [] => some []
  | a :: as =>
    match f a with
    | none => none
    | some b => (omapM f as).map (fun bs => b :: bs)

/-- Rendering of a reference node: ref_to_ident, with the domain qualifier
when the qualify flag is set.  A non-string value under "$ref" would make the
Python code raise inside ref_to_ident; the tool is never run on such input
and the embedding maps it to the unknown marker. -/
def refExpr (v : Json) (dp : Bool) : String :=
  match v with
  | .s r => if dp then "domain." ++ ref_to_ident r else ref_to_ident r
  | _ => "_"

/-- schema.get("properties", {}) viewed as an ordered field list.  A
non-object value under "properties" would make the Python code raise at
props.items(); the tool is never run on such input. -/
def getProps : Option Json → List (String × Json)
  | some (.obj ps) => ps
  | _ => []

/-- set(schema.get("required", [])) viewed as the underlying element list. -/
def getRequired : Option Json → List Json
  | some (.arr rs) => rs
  | _ => []

/-- name in required for the required-name set: a string key equals a set
element exactly when that element is the same string. -/
def reqMem (rs : List Json) (nm : String) : Bool :=
  rs.any (fun v => match v with | .s x => x = nm | _ => false)

/-- Test that an optional JSON value is the given string literal (the Python
comparisons typ == "object" etc., where typ is schema.get("type")). -/
def isStrVal (o : Option Json) (x : String) : Bool :=
  match o with
  | some (.s y) => y = x
  | _ => false

/-- Translation of an allOf/oneOf/anyOf composition: each child translated by
rec and joined with the given operator.  A non-list composition value would
make the Python for-loop raise; the tool is never run on such input. -/
def renderComposite (rec : Json → Option String) (sep : String) (v : Json) :
    Option String :=
  match v with
  | .arr cs => (omapM rec cs).map (fun parts => String.intercalate sep parts)
  | _ => some "_"

/-- One unfolding of schema_type from the script, with the recursive calls
abstracted as rec.  The branch order matches the source: empty check, $ref,
allOf, oneOf, anyOf, array, object (explicit type, properties, or
additionalProperties), primitives, unknown. -/
def schema_typeBody (rec : Json → Nat → Bool → Option String) (schema : Json)
    (indent : Nat) (dp : Bool) : Option String :=
  match schema with
  | .obj kvs =>
    if kvs.isEmpty then some "_"
    else
      match Json.lookup kvs "$ref" with
      | some v => some (refExpr v dp)
      | none =>
        match Json.lookup kvs "allOf" with
        | some v => renderComposite (fun c => rec c indent dp) " & " v
        | none =>
          match Json.lookup kvs "oneOf" with
          | some v => renderComposite (fun c => rec c indent dp) " | " v
          | none =>
            match Json.lookup kvs "anyOf" with
            | some v => renderComposite (fun c => rec c indent dp) " | " v
            | none =>
              let typ := Json.lookup kvs "type"
              if isStrVal typ "array" then
                (rec ((Json.lookup kvs "items").getD (.obj [])) indent dp).map
                  (fun t => "[..." ++ t ++ "]")
              else if isStrVal typ "object"
                  || (Json.lookup kvs "properties").isSome
                  || (Json.lookup kvs "additionalProperties").isSome then
                let props := getProps (Json.lookup kvs "properties")
                let required := getRequired (Json.lookup kvs "required")
                let additional :=
                  (Json.lookup kvs "additionalProperties").getD .null
                if props.isEmpty && additional.truthy then
                  (rec additional indent dp).map (fun t =>
                    "\x7b\n" ++ pad (indent + 1) ++ "[string]: " ++ t
                      ++ "\n" ++ pad indent ++ "\x7d")
                else if props.isEmpty then some "\x7b\x7d"
                else
                  (omapM (fun kv =>
                      (rec kv.2 (indent + 1) dp).map (fun ft =>
                        pad (indent + 1) ++ cue_ident kv.1
                          ++ (if reqMem required kv.1 then "" else "?")
                          ++ ": " ++ ft)) props).map
                    (fun fls => String.intercalate "\n"
                      ("\x7b" :: (fls ++ [pad indent ++ "\x7d"])))
              else if isStrVal typ "integer" then some "int"
              else if isStrVal typ "number" then some "number"
              else if isStrVal typ "boolean" then some "bool"
              else if isStrVal typ "string" then some "string"
              else some "_"
  | .null => some "_"
  | .b _ => some "_"
  | .i _ => some "_"
  | .s _ => some "_"
  | .arr _ => some "_"

/-- Fuel-indexed schema_type.  Every recursive call of the source descends
into a structurally smaller JSON node, so fuel sizeOf schema always suffices
(proved below); none means the fuel ran out. -/
def schema_typeF : Nat → Json → Nat → Bool → Option String
  | 0, _, _, _ => none
  | fuel + 1, schema, indent, dp => schema_typeBody (schema_typeF fuel) schema indent dp

/-- schema_type from the script: total because the recursion is structural
on the input node. -/
def schema_type (schema : Json) (indent : Nat) (dp : Bool) : String :=
  (schema_typeF (jsize schema) schema indent dp).getD "_"

/-- is_non_object_body from the script. -/
def is_non_object_body (j : Json) : Bool :=
  match j with
  | .obj kvs =>
    if (Json.lookup kvs "$ref").isSome then false
    else
      let typ := Json.lookup kvs "type"
      if isStrVal typ "array" || isStrVal typ "string" || isStrVal typ "integer"
          || isStrVal typ "number" || isStrVal typ "boolean" then true
      else if isStrVal typ "object"
          || (Json.lookup kvs "properties").isSome
          || (Json.lookup kvs "additionalProperties").isSome then false
      else (Json.lookup kvs "items").isSome
  | _ => false

/-- The record built from the parameter fields inside merge_body_and_params:
each field is the normalized name typed by the qualified translation of its
schema at depth 1. -/
def params_block (params : List (String × Json)) : String :=
  "\x7b\n" ++ String.intercalate "\n"
      (params.map (fun kv => "  " ++ cue_ident kv.1 ++ ": "
        ++ schema_type kv.2 1 true))
    ++ "\n\x7d"

/-- The $ref string of a request body when the body is a mapping carrying
one (isinstance(body_schema, dict) and "$ref" in body_schema).  A non-string
value under "$ref" would make the Python code raise in ref_to_ident; the
tool is never run on such input and the embedding falls through to the
non-reference branches. -/
def bodyRef : Option Json → Option String
  | some (.obj kvs) =>
    match Json.lookup kvs "$ref" with
    | some (.s r) => some r
    | _ => none
  | _ => none

/-- merge_body_and_params from the script.  Returns the input expression and
the has-input flag. -/
def merge_body_and_params (body_schema : Option Json)
    (params : List (String × Json)) : String × Bool :=
  match body_schema, params with
  | none, [] => ("\x7b\x7d", false)
  | _, _ =>
    match bodyRef body_schema with
    | some r =>
      if params.isEmpty then ("domain." ++ ref_to_ident r, true)
      else ("domain." ++ ref_to_ident r ++ " & " ++ params_block params, true)
    | none =>
      match body_schema with
      | some j =>
        if j.truthy then
          let body :=
            if is_non_object_body j then
              "\x7b\n  body: " ++ schema_type j 1 true ++ "\n\x7d"
            else schema_type j 0 true
          if params.isEmpty then (body, true)
          else (body ++ " & " ++ params_block params, true)
        else (params_block params, true)
      | none => (params_block params, true)

/-- The JSON schema carried by one response object:
resp.get("content", {}).get("application/json"), kept when truthy together
with its "schema" entry.  Non-mapping response or content values would make
the Python attribute accesses raise; the tool is never run on such input. -/
def response_json_schema (resp : Json) : Option Json :=
  match resp with
  | .obj rkvs =>
    match Json.lookup rkvs "content" with
    | some (.obj ckvs) =>
      match Json.lookup ckvs "application/json" with
      | some (.obj akvs) =>
        match Json.lookup akvs "schema" with
        | some sch => if sch.truthy then some sch else none
        | none => none
      | _ => none
    | _ => none
  | _ => none

/-- The loop of response_schema over the remaining candidate codes. -/
def response_schema_go (responses : List (String × Json)) :
    List String → Option Json
  | [] => none
  | code :: rest =>
    match Json.lookup responses code with
    | none => response_schema_go responses rest
    | some resp =>
      match response_json_schema resp with
      | some sch => some sch
      | none =>
        if code = "204" then none else response_schema_go responses rest

/-- response_schema from the script: candidates in the fixed order
200, 201, 202, 204. -/
def response_schema (responses : List (String × Json)) : Option Json :=
  response_schema_go responses ["200", "201", "202", "204"]

/-- p.get("name") of a parameter entry, accepted when truthy.  A falsy name
(absent, None, or the empty string) makes the loop skip the entry.  Non-dict
entries or non-string truthy names would make later dict operations raise;
the tool is never run on such input and the embedding also skips them. -/
def param_name (p : Json) : Option String :=
  match p with
  | .obj pkvs =>
    match Json.lookup pkvs "name" with
    | some (.s nm) => if nm = "" then none else some nm
    | _ => none
  | _ => none

/-- p.get("schema", {}) of a parameter entry. -/
def param_schema (p : Json) : Json :=
  match p with
  | .obj pkvs => (Json.lookup pkvs "schema").getD (.obj [])
  | _ => .obj []

/-- The accumulation loop of parse_parameters: each named entry is stored
with dict assignment, so a repeated name overwrites the previous schema. -/
def parse_parameters_aux (acc : List (String × Json)) :
    List Json → List (String × Json)
  | [] => acc
  | p :: rest =>
    match param_name p with
    | none => parse_parameters_aux acc rest
    | some nm => parse_parameters_aux (dinsert acc nm (param_schema p)) rest

/-- parse_parameters from the script. -/
def parse_parameters (params : List Json) : List (String × Json) :=
  parse_parameters_aux [] params

/-- The schema of the last entry of the list carrying the given name, when
one exists (used to state the last-wins property of parse_parameters). -/
def last_param_schema (params : List Json) (nm : String) : Option Json :=
  match params with
  | [] => none
  | p :: rest =>
    match last_param_schema rest nm with
    | some sch => some sch
    | none =>
      match param_name p with
      | some nm' => if nm' = nm then some (param_schema p) else none
      | none => none

/-- The parameter list assembled by generate_from_swagger for one operation:
the path-level shared "parameters" entry of the path item, followed by the
operation's own "parameters" list. -/
def collect_params (mkvs opkvs : List (String × Json)) : List Json :=
  (match Json.lookup mkvs "parameters" with
   | some (.arr xs) => xs
   | _ => []) ++
  (match Json.lookup opkvs "parameters" with
   | some (.arr ys) => ys
   | _ => [])

/-- One compiled operation record, as appended to the ops list. -/
structure Operation where
  name : String
  service : String
  input : String
  output : String
  method : String
  path : String
  summary : String
  pub : Bool
deriving DecidableEq

/-- The request-body schema selected by generate_from_swagger:
op.get("requestBody", {}).content["application/json"].schema, kept when the
request body and the schema are truthy. -/
def body_schema_of (opkvs : List (String × Json)) : Option Json :=
  match Json.lookup opkvs "requestBody" with
  | some (.obj rkvs) =>
    if rkvs.isEmpty then none
    else
      match Json.lookup rkvs "content" with
      | some (.obj ckvs) =>
        match Json.lookup ckvs "application/json" with
        | some (.obj akvs) =>
          match Json.lookup akvs "schema" with
          | some sch => if sch.truthy then some sch else none
          | none => none
        | _ => none
      | _ => none
  | _ => none

/-- The output expression of generate_from_swagger: empty record when no
schema was selected, the qualified reference for a mapping carrying a string
"$ref", the qualified translation otherwise. -/
def output_expr_of (o : Option Json) : String :=
  match o with
  | none => "\x7b\x7d"
  | some sch =>
    match sch with
    | .obj okvs =>
      match Json.lookup okvs "$ref" with
      | some (.s r) => "domain." ++ ref_to_ident r
      | _ => schema_type sch 0 true
    | _ => schema_type sch 0 true

/-- Compilation of one entry of a path item, i.e., one iteration of the
inner loop of generate_from_swagger.  The Python code calls op.get on the
entry value, so any entry whose value is not a mapping — in particular a
path-level shared "parameters" entry, whose value is a list — raises
AttributeError; this is modelled by Except.error. -/
def compile_op (path method : String) (mkvs : List (String × Json))
    (opJ : Json) (service_override : String) (used : List (String × Nat)) :
    Except String (Operation × List (String × Nat)) :=
  match opJ with
  | .obj opkvs =>
    let summary := match Json.lookup opkvs "summary" with
      | some (.s str) => str
      | _ => ""
    let tag := match Json.lookup opkvs "tags" with
      | some (.arr (.s t :: _)) => t
      | _ => "api"
    let service := if service_override = "" then tag else service_override
    match op_name_from path method summary tag used with
    | (op_name, used') =>
      let param_fields := parse_parameters (collect_params mkvs opkvs)
      match merge_body_and_params (body_schema_of opkvs) param_fields with
      | (input_expr, _has_input) =>
        let responses := match Json.lookup opkvs "responses" with
          | some (.obj rs) => rs
          | _ => []
        Except.ok
          ({ name := op_name, service := service, input := input_expr,
             output := output_expr_of (response_schema responses),
             method := strUpper method, path := path, summary := summary,
             pub := is_public summary path tag }, used')
  | _ => Except.error "AttributeError"

/-- The inner loop of generate_from_swagger over the entries of one path
item, threading the name registry and collecting operations and public
operation names in iteration order. -/
def compile_methods (path : String) (mkvs : List (String × Json))
    (service_override : String) :
    List (String × Json) → List (String × Nat) →
    Except String (List Operation × List String × List (String × Nat))
  | [], used => Except.ok ([], [], used)
  | (method, opJ) :: rest, used =>
    match compile_op path method mkvs opJ service_override used with
    | Except.error e => Except.error e
    | Except.ok (op, used') =>
      match compile_methods path mkvs service_override rest used' with
      | Except.error e => Except.error e
      | Except.ok (ops, pubs, used'') =>
        Except.ok (op :: ops, (if op.pub then op.name :: pubs else pubs), used'')

/-- The outer loop of generate_from_swagger over paths.  A path item that is
not a mapping would make methods.items() raise. -/
def compile_paths (service_override : String) :
    List (String × Json) → List (String × Nat) →
    Except String (List Operation × List String × List (String × Nat))
  | [], used => Except.ok ([], [], used)
  | (path, methodsJ) :: rest, used =>
    match methodsJ with
    | .obj mkvs =>
      match compile_methods path mkvs service_override mkvs used with
      | Except.error e => Except.error e
      | Except.ok (ops, pubs, used') =>
        match compile_paths service_override rest used' with
        | Except.error e => Except.error e
        | Except.ok (ops2, pubs2, used'') =>
          Except.ok (ops ++ ops2, pubs ++ pubs2, used'')
    | _ => Except.error "AttributeError"

/-- generate_from_swagger from the script, applied to an already parsed
document.  The name registry used_names is created empty here, once per
document.  Returns the component schema table, the operation list and the
public operation names. -/
def generate_from_swagger (data : Json) (service_override : String) :
    Except String (List (String × Json) × List Operation × List String) :=
  match data with
  | .obj dkvs =>
    let schemas := match Json.lookup dkvs "components" with
      | some (.obj ckvs) =>
        (match Json.lookup ckvs "schemas" with
         | some (.obj skvs) => skvs
         | _ => [])
      | _ => []
    match Json.lookup dkvs "paths" with
    | none =>
      match compile_paths service_override [] [] with
      | Except.error e => Except.error e
      | Except.ok (ops, pubs, _) => Except.ok (schemas, ops, pubs)
    | some (.obj pkvs) =>
      match compile_paths service_override pkvs [] with
      | Except.error e => Except.error e
      | Except.ok (ops, pubs, _) => Except.ok (schemas, ops, pubs)
    | some _ => Except.error "AttributeError"
  | _ => Except.error "AttributeError"

/-- The concatenated operation list of one batch run of main: the primary
document compiled with no service override, then the secondary document
compiled under the "search" override, ops_main + ops_search. -/
def batch_ops (doc1 doc2 : Json) : Except String (List Operation) :=
  match generate_from_swagger doc1 "" with
  | Except.error e => Except.error e
  | Except.ok (_, o1, _) =>
    match generate_from_swagger doc2 "search" with
    | Except.error e => Except.error e
    | Except.ok (_, o2, _) => Except.ok (o1 ++ o2)

/-- The four output artifacts of main, in the order they are written. -/
inductive Artifact where
  | domain
  | ops
  | http
  | allowlist
deriving DecidableEq

/-- The write order of main: write_domain, write_ops, write_http,
write_public_allowlist. -/
def artifact_order : List Artifact :=
  [Artifact.domain, Artifact.ops, Artifact.http, Artifact.allowlist]

/-- Sequential file writes: each write either succeeds (per the success
oracle wok) or raises, which aborts the run, leaving the files already
written in place. -/
def write_seq (wok : Artifact → Bool) : List Artifact → List Artifact
  | [] => []
  | a :: rest => if wok a then a :: write_seq wok rest else []

/-- The artifacts written by one run of main.  The two documents are parsed
and compiled (lines 313-314 of the script) before any write; a parse
failure (modelled by an Except.error input) or a compile failure aborts
with nothing written.  wok models the success of each file write. -/
def main_written (doc1 doc2 : Except String Json) (wok : Artifact → Bool) :
    List Artifact :=
  match doc1 with
  | .error _ => []
  | .ok d1 =>
    match doc2 with
    | .error _ => []
    | .ok d2 =>
      match generate_from_swagger d1 "", generate_from_swagger d2 "search" with
      | Except.ok _, Except.ok _ => write_seq wok artifact_order
      | _, _ => []

/-- Fixture constructor for an object schema with declared fields and a
required-name list, the shape exercised by the field-rendering claims. -/
def mkObjSchema (props : List (String × Json)) (required : List String) : Json :=
  .obj [("properties", .obj props), ("required", .arr (required.map .s))]

/-- Fixture: a one-operation document whose operation is summarized
"Get User". -/
def getUserDoc : Json :=
  .obj [("paths", .obj [("/u", .obj
    [("get", .obj [("summary", .s "Get User")])])])]

/-- Fixture: a three-operation document, all summarized "Get User". -/
def getUserDoc3 : Json :=
  .obj [("paths", .obj [
    ("/a", .obj [("get", .obj [("summary", .s "Get User")])]),
    ("/b", .obj [("get", .obj [("summary", .s "Get User")])]),
    ("/c", .obj [("get", .obj [("summary", .s "Get User")])])])]

/-- Fixture: a document with a path-level shared "parameters" entry next to
a declared method. -/
def sharedParamsDoc : Json :=
  .obj [("paths", .obj [("/items", .obj [
    ("parameters", .arr [.obj [("name", .s "id"),
      ("schema", .obj [("type", .s "string")])]]),
    ("get", .obj [("summary", .s "List items")])])])]

/-- Fixture: a document whose single operation has no summary, no
parameters, no requestBody and no responses. -/
def bareOpDoc : Json :=
  .obj [("paths", .obj [("/ping", .obj [("get", .obj [])])])]

/-- Fixture: a document with no paths and no components. -/
def emptyDoc : Json := .obj []

theorem jsize_pos (j : Json) : 1 ≤ jsize j := by
  cases j <;> simp [jsize]

theorem jsizeKV_pos (kvs : List (String × Json)) : 1 ≤ jsizeKV kvs := by
  cases kvs with
  | nil => simp [jsizeKV]
  | cons kv rest => cases kv; simp [jsizeKV]; omega

theorem jsizeL_pos (xs : List Json) : 1 ≤ jsizeL xs := by
  cases xs with
  | nil => simp [jsizeL]
  | cons x t => simp [jsizeL]; omega

theorem jsize_lookup_lt {kvs : List (String × Json)} {k : String} {v : Json}
    (h : Json.lookup kvs k = some v) : jsize v < jsize (Json.obj kvs) := by
  have main : ∀ kvs : List (String × Json), Json.lookup kvs k = some v →
      jsize v < jsizeKV kvs := by
    intro kvs
    induction kvs with
    | nil => intro h; simp [Json.lookup] at h
    | cons kv rest ih =>
      intro h
      cases kv with
      | mk k' v' =>
        simp only [Json.lookup] at h
        by_cases he : k' = k
        · simp [he] at h
          subst h
          simp [jsizeKV]
          omega
        · simp [he] at h
          have := ih h
          simp [jsizeKV]
          omega
  have := main kvs h
  simp [jsize]
  omega

theorem jsize_mem_arr_lt {xs : List Json} {x : Json} (h : x ∈ xs) :
    jsize x < jsize (Json.arr xs) := by
  have main : ∀ xs : List Json, x ∈ xs → jsize x < jsizeL xs := by
    intro xs
    induction xs with
    | nil => intro h; simp at h
    | cons y rest ih =>
      intro h
      rcases List.mem_cons.mp h with h | h
      · subst h; simp [jsizeL]; omega
      · have := ih h; simp [jsizeL]; omega
  have := main xs h
  simp [jsize]
  omega

theorem jsize_mem_obj_lt {ps : List (String × Json)} {nm : String} {pv : Json}
    (h : (nm, pv) ∈ ps) : jsize pv < jsize (Json.obj ps) := by
  have main : ∀ ps : List (String × Json), (nm, pv) ∈ ps →
      jsize pv < jsizeKV ps := by
    intro ps
    induction ps with
    | nil => intro h; simp at h
    | cons kv rest ih =>
      intro h
      rcases List.mem_cons.mp h with h | h
      · subst h; simp [jsizeKV]; omega
      · have := ih h
        cases kv
        simp [jsizeKV]
        omega
  have := main ps h
  simp [jsize]
  omega

theorem jsize_empty_obj_lt {kvs : List (String × Json)}
    (h : kvs.isEmpty = false) : jsize (Json.obj []) < jsize (Json.obj kvs) := by
  cases kvs with
  | nil => simp at h
  | cons kv rest =>
    cases kv with
    | mk k v =>
      have h1 := jsize_pos v
      have h2 := jsizeKV_pos rest
      simp [jsize, jsizeKV]
      omega

theorem omapM_congr {f g : α → Option β} {l : List α}
    (h : ∀ a ∈ l, f a = g a) : omapM f l = omapM g l := by
  induction l with
  | nil => rfl
  | cons a as ih =>
    simp only [omapM]
    rw [h a (List.mem_cons_self a as), ih (fun x hx => h x (List.mem_cons_of_mem a hx))]

theorem omapM_some {g : α → β} {l : List α} :
    omapM (fun a => some (g a)) l = some (l.map g) := by
  induction l with
  | nil => rfl
  | cons a as ih => simp [omapM, ih]

theorem omapM_isSome {f : α → Option β} {l : List α}
    (h : ∀ a ∈ l, (f a).isSome) : (omapM f l).isSome := by
  induction l with
  | nil => simp [omapM]
  | cons a as ih =>
    simp only [omapM]
    have ha := h a (List.mem_cons_self a as)
    cases hf : f a with
    | none => rw [hf] at ha; simp at ha
    | some b =>
      have := ih (fun x hx => h x (List.mem_cons_of_mem a hx))
      cases ho : omapM f as with
      | none => rw [ho] at this; simp at this
      | some bs => simp

theorem isSome_omap {f : α → β} (o : Option α) :
    ((o.map f).isSome) = o.isSome := by
  cases o <;> rfl

theorem jsize_lookup_arr_lt {kvs : List (String × Json)} {key : String}
    {cs : List Json} {c : Json} (hl : Json.lookup kvs key = some (.arr cs))
    (hm : c ∈ cs) : jsize c < jsize (Json.obj kvs) :=
  lt_trans (jsize_mem_arr_lt hm) (jsize_lookup_lt hl)

theorem jsize_lookup_props_lt {kvs : List (String × Json)} {key : String}
    {ps : List (String × Json)} {nm : String} {pv : Json}
    (hl : Json.lookup kvs key = some (.obj ps)) (hm : (nm, pv) ∈ ps) :
    jsize pv < jsize (Json.obj kvs) :=
  lt_trans (jsize_mem_obj_lt hm) (jsize_lookup_lt hl)

theorem schema_typeBody_congr {r1 r2 : Json → Nat → Bool → Option String}
    {j : Json} (i : Nat) (dp : Bool)
    (h : ∀ c i' d', jsize c < jsize j → r1 c i' d' = r2 c i' d') :
    schema_typeBody r1 j i dp = schema_typeBody r2 j i dp := by
  cases j with
  | null => rfl
  | b x => rfl
  | i n => rfl
  | s str => rfl
  | arr xs => rfl
  | obj kvs =>
    simp only [schema_typeBody]
    by_cases hk : kvs.isEmpty
    · simp [hk]
    · simp only [hk, Bool.false_eq_true, if_false]
      cases href : Json.lookup kvs "$ref" with
      | some v => rfl
      | none =>
        have hcomp : ∀ (key : String) (sep : String) (v : Json),
            Json.lookup kvs key = some v →
            renderComposite (fun c => r1 c i dp) sep v
              = renderComposite (fun c => r2 c i dp) sep v := by
          intro key sep v hv
          cases v with
          | arr cs =>
            simp only [renderComposite]
            rw [omapM_congr (fun c hc => h c i dp (jsize_lookup_arr_lt hv hc))]
          | null => rfl
          | b x => rfl
          | i n => rfl
          | s str => rfl
          | obj kvs2 => rfl
        cases hall : Json.lookup kvs "allOf" with
        | some v => exact hcomp "allOf" " & " v hall
        | none =>
          cases hone : Json.lookup kvs "oneOf" with
          | some v => exact hcomp "oneOf" " | " v hone
          | none =>
            cases hany : Json.lookup kvs "anyOf" with
            | some v => exact hcomp "anyOf" " | " v hany
            | none =>
              by_cases harr : isStrVal (Json.lookup kvs "type") "array"
              · simp only [harr, if_true]
                cases hit : Json.lookup kvs "items" with
                | some it =>
                  simp only [hit, Option.getD_some]
                  rw [h it i dp (jsize_lookup_lt hit)]
                | none =>
                  simp only [hit, Option.getD_none]
                  rw [h (Json.obj []) i dp (jsize_empty_obj_lt
                    (Bool.not_eq_true _ ▸ (by simpa using hk)))]
              · simp only [harr, Bool.false_eq_true, if_false]
                by_cases hobj : (isStrVal (Json.lookup kvs "type") "object"
                    || (Json.lookup kvs "properties").isSome
                    || (Json.lookup kvs "additionalProperties").isSome)
                · simp only [hobj, if_true]
                  cases hadd : Json.lookup kvs "additionalProperties" with
                  | some a =>
                    simp only [hadd, Option.getD_some]
                    by_cases hopen : (getProps (Json.lookup kvs "properties")).isEmpty
                        && a.truthy
                    · simp only [hopen, if_true]
                      rw [h a i dp (jsize_lookup_lt hadd)]
                    · simp only [hopen, Bool.false_eq_true, if_false]
                      by_cases hpe : (getProps (Json.lookup kvs "properties")).isEmpty
                      · simp [hpe]
                      · simp only [hpe, Bool.false_eq_true, if_false]
                        cases hpr : Json.lookup kvs "properties" with
                        | some pv =>
                          cases pv with
                          | obj ps =>
                            simp only [hpr, getProps]
                            congr 1
                            apply omapM_congr
                            intro kv hkv
                            obtain ⟨nm, pvv⟩ := kv
                            rw [h pvv (i+1) dp (jsize_lookup_props_lt hpr hkv)]
                          | null => rw [hpr] at hpe; simp [getProps] at hpe
                          | b x => rw [hpr] at hpe; simp [getProps] at hpe
                          | i n => rw [hpr] at hpe; simp [getProps] at hpe
                          | s str => rw [hpr] at hpe; simp [getProps] at hpe
                          | arr xs => rw [hpr] at hpe; simp [getProps] at hpe
                        | none => rw [hpr] at hpe; simp [getProps] at hpe
                  | none =>
                    simp only [hadd, Option.getD_none]
                    by_cases hopen : (getProps (Json.lookup kvs "properties")).isEmpty
                        && Json.truthy .null
                    · simp [Json.truthy] at hopen
                    · simp only [hopen, Bool.false_eq_true, if_false]
                      by_cases hpe : (getProps (Json.lookup kvs "properties")).isEmpty
                      · simp [hpe]
                      · simp only [hpe, Bool.false_eq_true, if_false]
                        cases hpr : Json.lookup kvs "properties" with
                        | some pv =>
                          cases pv with
                          | obj ps =>
                            simp only [hpr, getProps]
                            congr 1
                            apply omapM_congr
                            intro kv hkv
                            obtain ⟨nm, pvv⟩ := kv
                            rw [h pvv (i+1) dp (jsize_lookup_props_lt hpr hkv)]
                          | null => rw [hpr] at hpe; simp [getProps] at hpe
                          | b x => rw [hpr] at hpe; simp [getProps] at hpe
                          | i n => rw [hpr] at hpe; simp [getProps] at hpe
                          | s str => rw [hpr] at hpe; simp [getProps] at hpe
                          | arr xs => rw [hpr] at hpe; simp [getProps] at hpe
                        | none => rw [hpr] at hpe; simp [getProps] at hpe
                · simp only [hobj, Bool.false_eq_true, if_false]

theorem schema_typeBody_isSome {r : Json → Nat → Bool → Option String}
    (hr : ∀ c i' d', (r c i' d').isSome) (j : Json) (i : Nat) (dp : Bool) :
    (schema_typeBody r j i dp).isSome := by
  cases j with
  | null => rfl
  | b x => rfl
  | i n => rfl
  | s str => rfl
  | arr xs => rfl
  | obj kvs =>
    simp only [schema_typeBody]
    by_cases hk : kvs.isEmpty
    · simp [hk]
    · simp only [hk, Bool.false_eq_true, if_false]
      cases href : Json.lookup kvs "$ref" with
      | some v => rfl
      | none =>
        have hcomp : ∀ (sep : String) (v : Json),
            (renderComposite (fun c => r c i dp) sep v).isSome := by
          intro sep v
          cases v with
          | arr cs =>
            simp only [renderComposite]
            rw [isSome_omap]
            exact omapM_isSome (fun c _ => hr c i dp)
          | null => rfl
          | b x => rfl
          | i n => rfl
          | s str => rfl
          | obj kvs2 => rfl
        cases hall : Json.lookup kvs "allOf" with
        | some v => exact hcomp " & " v
        | none =>
          cases hone : Json.lookup kvs "oneOf" with
          | some v => exact hcomp " | " v
          | none =>
            cases hany : Json.lookup kvs "anyOf" with
            | some v => exact hcomp " | " v
            | none =>
              by_cases harr : isStrVal (Json.lookup kvs "type") "array"
              · simp only [harr, if_true]
                rw [isSome_omap]
                exact hr _ i dp
              · simp only [harr, Bool.false_eq_true, if_false]
                by_cases hobj : (isStrVal (Json.lookup kvs "type") "object"
                    || (Json.lookup kvs "properties").isSome
                    || (Json.lookup kvs "additionalProperties").isSome)
                · simp only [hobj, if_true]
                  by_cases hopen : (getProps (Json.lookup kvs "properties")).isEmpty
                      && ((Json.lookup kvs "additionalProperties").getD .null).truthy
                  · simp only [hopen, if_true]
                    rw [isSome_omap]
                    exact hr _ i dp
                  · simp only [hopen, Bool.false_eq_true, if_false]
                    by_cases hpe : (getProps (Json.lookup kvs "properties")).isEmpty
                    · simp [hpe]
                    · simp only [hpe, Bool.false_eq_true, if_false]
                      rw [isSome_omap]
                      apply omapM_isSome
                      intro kv hkv
                      rw [isSome_omap]
                      exact hr kv.2 (i+1) dp
                · simp only [hobj, Bool.false_eq_true, if_false]
                  split_ifs <;> rfl

theorem schema_typeF_adequate :
    ∀ (fuel : Nat) (j : Json) (i : Nat) (dp : Bool), jsize j ≤ fuel →
      schema_typeF fuel j i dp = some (schema_type j i dp) := by
  intro fuel
  induction fuel using Nat.strong_induction_on with
  | _ fuel ih =>
    intro j i dp hle
    have h1 := jsize_pos j
    cases fuel with
    | zero => omega
    | succ f =>
      cases hm : jsize j with
      | zero => omega
      | succ m =>
        have hrec1 : ∀ c i' d', jsize c < jsize j →
            schema_typeF f c i' d' = some (schema_type c i' d') := by
          intro c i' d' hc
          exact ih f (by omega) c i' d' (by omega)
        have hrec2 : ∀ c i' d', jsize c < jsize j →
            schema_typeF m c i' d' = some (schema_type c i' d') := by
          intro c i' d' hc
          exact ih m (by omega) c i' d' (by omega)
        have e1 : schema_typeBody (schema_typeF f) j i dp
            = schema_typeBody (fun c i' d' => some (schema_type c i' d')) j i dp :=
          schema_typeBody_congr i dp hrec1
        have e2 : schema_typeBody (schema_typeF m) j i dp
            = schema_typeBody (fun c i' d' => some (schema_type c i' d')) j i dp :=
          schema_typeBody_congr i dp hrec2
        have hsome : (schema_typeBody
            (fun c i' d' => some (schema_type c i' d')) j i dp).isSome :=
          @schema_typeBody_isSome (fun c i' d' => some (schema_type c i' d'))
            (fun _ _ _ => rfl) j i dp
        have hval : schema_type j i dp = (schema_typeBody
            (fun c i' d' => some (schema_type c i' d')) j i dp).getD "_" := by
          have hdef : schema_type j i dp
              = (schema_typeF (jsize j) j i dp).getD "_" := rfl
          rw [hdef, hm]
          show (schema_typeBody (schema_typeF m) j i dp).getD "_" = _
          rw [e2]
        show schema_typeBody (schema_typeF f) j i dp = some (schema_type j i dp)
        rw [e1, hval]
        cases hx : schema_typeBody
            (fun c i' d' => some (schema_type c i' d')) j i dp with
        | none => rw [hx] at hsome; simp at hsome
        | some x => rfl

theorem lookupNat_append_none {used : List (String × Nat)} {b : String}
    (h : lookupNat used b = none) (v : Nat) :
    lookupNat (used ++ [(b, v)]) b = some v := by
  induction used with
  | nil => simp [lookupNat]
  | cons kv rest ih =>
    cases kv with
    | mk k n =>
      simp only [lookupNat] at h ⊢
      by_cases he : k = b
      · simp [he] at h
      · simp only [he, if_false] at h ⊢
        exact ih h

theorem toDigits_length_pos (b n : Nat) : 1 ≤ (Nat.toDigits b n).length := by
  unfold Nat.toDigits Nat.toDigitsCore
  by_cases h : n / b = 0
  · simp [h]
  · simp only [h, if_false]
    rw [Nat.toDigitsCore_lens_eq]
    omega

theorem toString_nat_length_pos (n : Nat) : 1 ≤ (toString n).length := by
  have h1 := toDigits_length_pos 10 n
  have h2 : (toString n).length = (Nat.toDigits 10 n).length := rfl
  omega

theorem append_toString_ne (b : String) (n : Nat) :
    b ++ toString n ≠ b := by
  intro he
  have h1 : (b ++ toString n).length = b.length + (toString n).length :=
    String.length_append b (toString n)
  have h2 := toString_nat_length_pos n
  rw [he] at h1
  omega

theorem lookup_dinsert (kvs : List (String × Json)) (k : String) (v : Json)
    (k' : String) : Json.lookup (dinsert kvs k v) k'
      = if k = k' then some v else Json.lookup kvs k' := by
  induction kvs with
  | nil => simp [dinsert, Json.lookup]
  | cons kv rest ih =>
    cases kv with
    | mk k0 v0 =>
      simp only [dinsert]
      by_cases h0 : k0 = k
      · subst h0
        by_cases h1 : k0 = k'
        · simp [Json.lookup, h1]
        · simp [Json.lookup, h1]
      · simp only [h0, if_false, Json.lookup]
        by_cases h1 : k0 = k'
        · subst h1
          have hk : ¬ k = k0 := fun hc => h0 hc.symm
          simp [hk]
        · simp [h1, ih]

theorem parse_parameters_aux_lookup (ps : List Json) :
    ∀ (acc : List (String × Json)) (nm : String),
    Json.lookup (parse_parameters_aux acc ps) nm
      = match last_param_schema ps nm with
        | some sch => some sch
        | none => Json.lookup acc nm := by
  induction ps with
  | nil => intro acc nm; simp [parse_parameters_aux, last_param_schema]
  | cons p rest ih =>
    intro acc nm
    simp only [parse_parameters_aux, last_param_schema]
    cases hn : param_name p with
    | none =>
      rw [ih]
      cases hl : last_param_schema rest nm <;> rfl
    | some nm' =>
      rw [ih]
      cases hl : last_param_schema rest nm with
      | some sch => rfl
      | none =>
        simp only
        rw [lookup_dinsert]
        by_cases he : nm' = nm
        · simp [he]
        · simp [he]

theorem parse_parameters_lookup (ps : List Json) (nm : String) :
    Json.lookup (parse_parameters ps) nm
      = match last_param_schema ps nm with
        | some sch => some sch
        | none => none := by
  rw [parse_parameters, parse_parameters_aux_lookup]
  cases last_param_schema ps nm <;> rfl

theorem last_param_schema_append (a b : List Json) (nm : String) :
    last_param_schema (a ++ b) nm
      = match last_param_schema b nm with
        | some sch => some sch
        | none => last_param_schema a nm := by
  induction a with
  | nil =>
    simp only [List.nil_append]
    cases last_param_schema b nm <;> rfl
  | cons p rest ih =>
    simp only [List.cons_append, last_param_schema, List.append_eq]
    rw [ih]
    cases hb : last_param_schema b nm with
    | some sch => rfl
    | none => rfl

theorem write_seq_is_front (w : Artifact → Bool) (l : List Artifact) :
    ∃ r, write_seq w l ++ r = l := by
  induction l with
  | nil => exact ⟨[], rfl⟩
  | cons a t ih =>
    by_cases h : w a
    · obtain ⟨r, hr⟩ := ih
      exact ⟨r, by simp [write_seq, h, hr]⟩
    · exact ⟨a :: t, by simp [write_seq, h]⟩

theorem reqMem_map_s (l : List String) (nm : String) :
    reqMem (l.map Json.s) nm = true ↔ nm ∈ l := by
  induction l with
  | nil => simp [reqMem]
  | cons a t ih =>
    simp only [List.map_cons, reqMem, List.any_cons] at ih ⊢
    constructor
    · intro h
      rcases Bool.or_eq_true_iff.mp h with h | h
      · have : a = nm := by simpa using h
        exact this ▸ List.mem_cons_self a t
      · exact List.mem_cons_of_mem a (ih.mp h)
    · intro h
      rcases List.mem_cons.mp h with h | h
      · subst h; simp
      · exact Bool.or_eq_true_iff.mpr (Or.inr (ih.mpr h))

theorem reqMarker_eq (l : List String) (nm : String) :
    (if reqMem (l.map Json.s) nm then ("" : String) else "?")
      = if nm ∈ l then "" else "?" := by
  by_cases h : nm ∈ l
  · simp [h, (reqMem_map_s l nm).mpr h]
  · have hb : reqMem (l.map Json.s) nm = false := by
      cases hr : reqMem (l.map Json.s) nm
      · rfl
      · exact absurd ((reqMem_map_s l nm).mp hr) h
    simp [h, hb]

/-- The unfolding equation of schema_type: one step of the source function,
with every recursive call replaced by schema_type itself. -/
theorem schema_type_eq_body (j : Json) (i : Nat) (dp : Bool) :
    schema_type j i dp = (schema_typeBody
      (fun c i' d' => some (schema_type c i' d')) j i dp).getD "_" := by
  have hdef : schema_type j i dp
      = (schema_typeF (jsize j) j i dp).getD "_" := rfl
  rw [hdef]
  cases hm : jsize j with
  | zero => have := jsize_pos j; omega
  | succ m =>
    show (schema_typeBody (schema_typeF m) j i dp).getD "_" = _
    congr 1
    apply schema_typeBody_congr
    intro c i' d' hc
    exact schema_typeF_adequate m c i' d' (by omega)


/-- Claim C3: the Request Shape Merger follows the decision table: absent
body with no parameters yields the empty record with has-input false; a
reference body yields the qualified reference expression, intersected with
the parameter record exactly when parameters are non-empty; a present
non-reference structurally-non-object body is wrapped under a single field
named body; a present non-reference object body yields its translated
expression; absent body with non-empty parameters yields the parameter
record alone, all with has-input true. -/
theorem c3_request_shape_merger :
    (merge_body_and_params none [] = ("\x7b\x7d", false))
    ∧ (∀ kvs r params, Json.lookup kvs "$ref" = some (Json.s r) →
        merge_body_and_params (some (Json.obj kvs)) params
          = (if params.isEmpty then "domain." ++ ref_to_ident r
             else "domain." ++ ref_to_ident r ++ " & " ++ params_block params,
             true))
    ∧ (∀ j params, j.truthy = true → is_non_object_body j = true →
        merge_body_and_params (some j) params
          = (if params.isEmpty then
               "\x7b\n  body: " ++ schema_type j 1 true ++ "\n\x7d"
             else "\x7b\n  body: " ++ schema_type j 1 true ++ "\n\x7d"
               ++ " & " ++ params_block params, true))
    ∧ (∀ kvs params, (Json.obj kvs).truthy = true →
        Json.lookup kvs "$ref" = none →
        is_non_object_body (Json.obj kvs) = false →
        merge_body_and_params (some (Json.obj kvs)) params
          = (if params.isEmpty then schema_type (Json.obj kvs) 0 true
             else schema_type (Json.obj kvs) 0 true ++ " & "
               ++ params_block params, true))
    ∧ (∀ params, params.isEmpty = false →
        merge_body_and_params none params = (params_block params, true)) := by
  refine ⟨rfl, ?_, ?_, ?_, ?_⟩
  · intro kvs r params h
    cases params with
    | nil => simp [merge_body_and_params, bodyRef, h]
    | cons q qs => simp [merge_body_and_params, bodyRef, h]
  · intro j params ht hn
    cases j with
    | obj kvs =>
      have href : Json.lookup kvs "$ref" = none := by
        cases hr : Json.lookup kvs "$ref" with
        | none => rfl
        | some v => simp [is_non_object_body, hr] at hn
      cases params with
      | nil => simp [merge_body_and_params, bodyRef, href, ht, hn]
      | cons q qs => simp [merge_body_and_params, bodyRef, href, ht, hn]
    | null => simp [is_non_object_body] at hn
    | b x => simp [is_non_object_body] at hn
    | i n => simp [is_non_object_body] at hn
    | s str => simp [is_non_object_body] at hn
    | arr xs => simp [is_non_object_body] at hn
  · intro kvs params ht href hn
    cases params with
    | nil => simp [merge_body_and_params, bodyRef, href, ht, hn]
    | cons q qs => simp [merge_body_and_params, bodyRef, href, ht, hn]
  · intro params h
    cases params with
    | nil => simp at h
    | cons q qs => simp [merge_body_and_params, bodyRef]

/-- Witness for claim C3: the reference row at a concrete reference body
with no parameters, and the non-object row at a concrete string body with
one parameter. -/
theorem c3_request_shape_merger_witness :
    (Json.lookup [("$ref", Json.s "#/components/schemas/User")] "$ref"
      = some (Json.s "#/components/schemas/User"))
    ∧ merge_body_and_params
        (some (Json.obj [("$ref", Json.s "#/components/schemas/User")])) []
        = ("domain.User", true)
    ∧ ((Json.obj [("type", Json.s "string")]).truthy = true)
    ∧ merge_body_and_params (some (Json.obj [("type", Json.s "string")]))
        [("q", Json.obj [])]
        = ("\x7b\n  body: string\n\x7d & \x7b\n  q: _\n\x7d", true) :=
  ⟨rfl,
   c3_request_shape_merger.2.1 [("$ref", Json.s "#/components/schemas/User")]
     "#/components/schemas/User" [] rfl,
   rfl,
   c3_request_shape_merger.2.2.1 (Json.obj [("type", Json.s "string")])
     [("q", Json.obj [])] rfl rfl⟩

/-- Claim C4: the Response Schema Selector iterates codes in the fixed
order 200, 201, 202, 204; the first present code carrying a JSON schema is
returned immediately; a present 204 without a schema returns none
immediately; a present non-204 code without a schema is skipped; a mapping
with only 201 and a schema selects that schema; with no candidate present,
none is returned. -/
theorem c4_response_schema_selector :
    (∀ rs, response_schema rs = response_schema_go rs ["200", "201", "202", "204"])
    ∧ (∀ rs r sch, Json.lookup rs "200" = some r →
        response_json_schema r = some sch → response_schema rs = some sch)
    ∧ (∀ rs r code rest, Json.lookup rs code = some r →
        response_json_schema r = none → code ≠ "204" →
        response_schema_go rs (code :: rest) = response_schema_go rs rest)
    ∧ (∀ rs r rest, Json.lookup rs "204" = some r →
        response_json_schema r = none →
        response_schema_go rs ("204" :: rest) = none)
    ∧ (∀ r sch, response_json_schema r = some sch →
        response_schema [("201", r)] = some sch)
    ∧ (∀ rs, Json.lookup rs "200" = none → Json.lookup rs "201" = none →
        Json.lookup rs "202" = none → Json.lookup rs "204" = none →
        response_schema rs = none) := by
  refine ⟨fun rs => rfl, ?_, ?_, ?_, ?_, ?_⟩
  · intro rs r sch h1 h2
    simp [response_schema, response_schema_go, h1, h2]
  · intro rs r code rest h1 h2 h3
    simp [response_schema_go, h1, h2, h3]
  · intro rs r rest h1 h2
    simp [response_schema_go, h1, h2]
  · intro r sch h
    simp [response_schema, response_schema_go, Json.lookup, h]
  · intro rs h1 h2 h3 h4
    simp [response_schema, response_schema_go, h1, h2, h3, h4]

/-- Witness for claim C4: a mapping containing only 201 with a JSON schema
selects that schema, and a present 204 without a schema yields none. -/
theorem c4_response_schema_selector_witness :
    (response_json_schema (Json.obj [("content", Json.obj [("application/json",
        Json.obj [("schema", Json.obj [("type", Json.s "string")])])])])
      = some (Json.obj [("type", Json.s "string")]))
    ∧ response_schema [("201", Json.obj [("content", Json.obj
        [("application/json", Json.obj [("schema",
          Json.obj [("type", Json.s "string")])])])])]
      = some (Json.obj [("type", Json.s "string")])
    ∧ response_schema_go [("204", Json.obj [])] ["204"] = none :=
  ⟨rfl,
   c4_response_schema_selector.2.2.2.2.1 _ _ rfl,
   c4_response_schema_selector.2.2.2.1 [("204", Json.obj [])] (Json.obj [])
     [] rfl rfl⟩

/-- Claim C5: the Operation Namer builds the base name by title-casing the
alphanumeric words of the summary (falling back to "method path" when the
summary or its transform is empty, and to the literal Operation when both
are empty); an unseen base name is registered with counter 0 and returned
unchanged; a seen base name increments its counter n and returns the base
with numeric suffix n+1, so "Get User" twice yields GetUser then GetUser1. -/
theorem c5_operation_namer :
    (∀ p m s t (used : List (String × Nat)),
        lookupNat used (base_name p m s) = none →
        op_name_from p m s t used
          = (base_name p m s, used ++ [(base_name p m s, 0)]))
    ∧ (∀ p m s t used n, lookupNat used (base_name p m s) = some n →
        op_name_from p m s t used
          = (base_name p m s ++ toString (n + 1),
             setNat used (base_name p m s) (n + 1)))
    ∧ (base_name "/u" "get" "Get User" = "GetUser")
    ∧ (∀ p m t p' m' t',
        (op_name_from p m "Get User" t []).1 = "GetUser"
        ∧ (op_name_from p' m' "Get User" t'
            (op_name_from p m "Get User" t []).2).1 = "GetUser1")
    ∧ (base_name "/users" "get" "" = "GetUsers")
    ∧ (base_name "/x" "get" "!!!" = "GetX")
    ∧ (base_name "!!" "##" "%%" = "Operation") := by
  refine ⟨?_, ?_, rfl, fun p m t p' m' t' => ⟨rfl, rfl⟩, rfl, rfl, rfl⟩
  · intro p m s t used h
    simp [op_name_from, h]
  · intro p m s t used n h
    simp [op_name_from, h]

/-- Witness for claim C5: the registry rows at concrete registries. -/
theorem c5_operation_namer_witness :
    (lookupNat [] (base_name "/p" "get" "Ping") = none)
    ∧ op_name_from "/p" "get" "Ping" "api" [] = ("Ping", [("Ping", 0)])
    ∧ (lookupNat [("GetUser", 0)] (base_name "/u" "get" "Get User") = some 0)
    ∧ op_name_from "/u" "get" "Get User" "api" [("GetUser", 0)]
        = ("GetUser1", [("GetUser", 1)]) :=
  ⟨rfl,
   c5_operation_namer.1 "/p" "get" "Ping" "api" [] rfl,
   rfl,
   c5_operation_namer.2.1 "/u" "get" "Get User" "api" [("GetUser", 0)] 0 rfl⟩

/-- Claim C7: the Schema Type Translator maps integer to int, number to
number, boolean to bool, string to string, exactly; an empty or absent
schema node translates to the unknown marker; and a schema matching no
recognized shape degrades to the unknown marker instead of raising. -/
theorem c7_primitive_translation :
    (∀ i dp, schema_type (Json.obj [("type", Json.s "integer")]) i dp = "int")
    ∧ (∀ i dp, schema_type (Json.obj [("type", Json.s "number")]) i dp = "number")
    ∧ (∀ i dp, schema_type (Json.obj [("type", Json.s "boolean")]) i dp = "bool")
    ∧ (∀ i dp, schema_type (Json.obj [("type", Json.s "string")]) i dp = "string")
    ∧ (∀ i dp, schema_type (Json.obj []) i dp = "_")
    ∧ (∀ i dp, schema_type Json.null i dp = "_")
    ∧ (∀ kvs i dp,
        Json.lookup kvs "$ref" = none → Json.lookup kvs "allOf" = none →
        Json.lookup kvs "oneOf" = none → Json.lookup kvs "anyOf" = none →
        Json.lookup kvs "properties" = none →
        Json.lookup kvs "additionalProperties" = none →
        (∀ t : String, Json.lookup kvs "type" = some (Json.s t) →
          t ≠ "array" ∧ t ≠ "object" ∧ t ≠ "integer" ∧ t ≠ "number"
            ∧ t ≠ "boolean" ∧ t ≠ "string") →
        schema_type (Json.obj kvs) i dp = "_") := by
  refine ⟨fun i dp => rfl, fun i dp => rfl, fun i dp => rfl, fun i dp => rfl,
    fun i dp => rfl, fun i dp => rfl, ?_⟩
  intro kvs i dp h1 h2 h3 h4 h5 h6 h7
  rw [schema_type_eq_body]
  by_cases hk : kvs.isEmpty
  · simp [schema_typeBody, hk]
  · cases hty : Json.lookup kvs "type" with
    | none =>
      simp [schema_typeBody, hk, h1, h2, h3, h4, h5, h6, hty, isStrVal]
    | some v =>
      cases v with
      | s t =>
        obtain ⟨t1, t2, t3, t4, t5, t6⟩ := h7 t hty
        simp [schema_typeBody, hk, h1, h2, h3, h4, h5, h6, hty, isStrVal,
          t1, t2, t3, t4, t5, t6]
      | null => simp [schema_typeBody, hk, h1, h2, h3, h4, h5, h6, hty, isStrVal]
      | b x => simp [schema_typeBody, hk, h1, h2, h3, h4, h5, h6, hty, isStrVal]
      | i n => simp [schema_typeBody, hk, h1, h2, h3, h4, h5, h6, hty, isStrVal]
      | arr xs => simp [schema_typeBody, hk, h1, h2, h3, h4, h5, h6, hty, isStrVal]
      | obj kvs2 => simp [schema_typeBody, hk, h1, h2, h3, h4, h5, h6, hty, isStrVal]

/-- Witness for claim C7: a schema with only an unrecognized key renders as
the unknown marker. -/
theorem c7_primitive_translation_witness :
    (Json.lookup [("format", Json.s "uuid")] "$ref" = none)
    ∧ schema_type (Json.obj [("format", Json.s "uuid")]) 0 false = "_" :=
  ⟨rfl,
   c7_primitive_translation.2.2.2.2.2.2 [("format", Json.s "uuid")] 0 false
     rfl rfl rfl rfl rfl rfl
     (fun t ht => by simp [Json.lookup] at ht)⟩

/-- Claim C9: a parameter entry with a missing or empty name contributes no
field; when several entries share a name the last-processed entry's schema
determines the field; and the compiler assembles path-level shared
parameters before method-level ones, so a method-level parameter overrides
a path-level one of the same name. -/
theorem c9_parameter_precedence :
    (∀ p rest, param_name p = none →
        parse_parameters (p :: rest) = parse_parameters rest)
    ∧ (∀ ps nm, Json.lookup (parse_parameters ps) nm
        = match last_param_schema ps nm with
          | some sch => some sch
          | none => none)
    ∧ (∀ pathPs opPs nm sch, last_param_schema opPs nm = some sch →
        Json.lookup (parse_parameters (pathPs ++ opPs)) nm = some sch)
    ∧ (∀ mkvs opkvs xs ys,
        Json.lookup mkvs "parameters" = some (Json.arr xs) →
        Json.lookup opkvs "parameters" = some (Json.arr ys) →
        collect_params mkvs opkvs = xs ++ ys) := by
  refine ⟨?_, ?_, ?_, ?_⟩
  · intro p rest h
    simp [parse_parameters, parse_parameters_aux, h]
  · intro ps nm
    exact parse_parameters_lookup ps nm
  · intro pathPs opPs nm sch h
    rw [parse_parameters_lookup, last_param_schema_append, h]
  · intro mkvs opkvs xs ys h1 h2
    simp [collect_params, h1, h2]

/-- Witness for claim C9: a nameless entry is dropped, and a method-level
parameter named q overrides the path-level q. -/
theorem c9_parameter_precedence_witness :
    (param_name (Json.obj []) = none)
    ∧ parse_parameters [Json.obj [], Json.obj [("name", Json.s "q")]]
        = parse_parameters [Json.obj [("name", Json.s "q")]]
    ∧ (last_param_schema [Json.obj [("name", Json.s "q"),
        ("schema", Json.obj [("type", Json.s "string")])]] "q"
        = some (Json.obj [("type", Json.s "string")]))
    ∧ Json.lookup (parse_parameters
        ([Json.obj [("name", Json.s "q"),
           ("schema", Json.obj [("type", Json.s "integer")])]]
         ++ [Json.obj [("name", Json.s "q"),
           ("schema", Json.obj [("type", Json.s "string")])]])) "q"
        = some (Json.obj [("type", Json.s "string")]) :=
  ⟨rfl,
   c9_parameter_precedence.1 (Json.obj []) [Json.obj [("name", Json.s "q")]] rfl,
   rfl,
   c9_parameter_precedence.2.2.1
     [Json.obj [("name", Json.s "q"),
       ("schema", Json.obj [("type", Json.s "integer")])]]
     [Json.obj [("name", Json.s "q"),
       ("schema", Json.obj [("type", Json.s "string")])]]
     "q" (Json.obj [("type", Json.s "string")]) rfl⟩

/-- Claim C10: the Schema Type Translator terminates on every finite schema
descriptor: fuel equal to the structural size of the node always suffices,
because every recursive call descends into a structurally smaller child, at
every nesting depth and for both values of the qualify flag. -/
theorem c10_translator_terminates :
    ∀ (fuel : Nat) (j : Json) (i : Nat) (dp : Bool), jsize j ≤ fuel →
      schema_typeF fuel j i dp = some (schema_type j i dp) :=
  fun fuel j i dp h => schema_typeF_adequate fuel j i dp h

/-- Witness for claim C10: a nested array-of-integer schema evaluated with
fuel equal to its size. -/
theorem c10_translator_terminates_witness :
    (jsize (Json.obj [("type", Json.s "array"),
       ("items", Json.obj [("type", Json.s "integer")])]) ≤ 9)
    ∧ schema_typeF 9 (Json.obj [("type", Json.s "array"),
        ("items", Json.obj [("type", Json.s "integer")])]) 0 false
      = some (schema_type (Json.obj [("type", Json.s "array"),
          ("items", Json.obj [("type", Json.s "integer")])]) 0 false) :=
  ⟨by decide,
   c10_translator_terminates 9 _ 0 false (by decide)⟩

/-- Claim C6: for an object schema with declared fields, the translator
emits the fields in declaration order, and a field carries no optional
marker exactly when its original name occurs in the required-name set; in
particular properties a, b with required [a] render a unmarked and b with
the marker. -/
theorem c6_object_field_rendering :
    (∀ props required i dp, props ≠ ([] : List (String × Json)) →
        schema_type (mkObjSchema props required) i dp
          = String.intercalate "\n" ("\x7b" ::
              (props.map (fun kv =>
                pad (i + 1) ++ cue_ident kv.1
                  ++ (if kv.1 ∈ required then "" else "?")
                  ++ ": " ++ schema_type kv.2 (i + 1) dp)
               ++ [pad i ++ "\x7d"])))
    ∧ (schema_type (mkObjSchema
          [("a", Json.obj [("type", Json.s "string")]),
           ("b", Json.obj [("type", Json.s "string")])] ["a"]) 0 false
        = "\x7b\n  a: string\n  b?: string\n\x7d") := by
  constructor
  · intro props required i dp hne
    have hpe : props.isEmpty = false := by
      cases props with
      | nil => exact absurd rfl hne
      | cons a l => rfl
    rw [schema_type_eq_body]
    have e1 : Json.lookup [("properties", Json.obj props),
        ("required", Json.arr (required.map Json.s))] "$ref" = none := rfl
    have e2 : Json.lookup [("properties", Json.obj props),
        ("required", Json.arr (required.map Json.s))] "allOf" = none := rfl
    have e3 : Json.lookup [("properties", Json.obj props),
        ("required", Json.arr (required.map Json.s))] "oneOf" = none := rfl
    have e4 : Json.lookup [("properties", Json.obj props),
        ("required", Json.arr (required.map Json.s))] "anyOf" = none := rfl
    have e5 : Json.lookup [("properties", Json.obj props),
        ("required", Json.arr (required.map Json.s))] "type" = none := rfl
    have e6 : Json.lookup [("properties", Json.obj props),
        ("required", Json.arr (required.map Json.s))] "properties"
        = some (Json.obj props) := rfl
    have e7 : Json.lookup [("properties", Json.obj props),
        ("required", Json.arr (required.map Json.s))] "required"
        = some (Json.arr (required.map Json.s)) := rfl
    have e8 : Json.lookup [("properties", Json.obj props),
        ("required", Json.arr (required.map Json.s))] "additionalProperties"
        = none := rfl
    simp only [mkObjSchema, schema_typeBody, e1, e2, e3, e4, e5, e6, e7, e8,
      getProps, getRequired, isStrVal, Option.isSome_some, Option.isSome_none,
      Option.getD_none, Option.getD_some, Json.truthy, Bool.and_false,
      Bool.false_eq_true, if_false, Bool.or_true, Bool.true_or, if_true,
      List.isEmpty_cons, hpe, Option.map_some']
    rw [omapM_some]
    simp only [Option.map_some', Option.getD_some]
    congr 1
    congr 1
    congr 1
    apply List.map_congr_left
    intro kv hkv
    rw [reqMarker_eq]
  · rfl

/-- Witness for claim C6: a single optional field rendered from a concrete
object schema. -/
theorem c6_object_field_rendering_witness :
    ([("a", Json.null)] ≠ ([] : List (String × Json)))
    ∧ schema_type (mkObjSchema [("a", Json.null)] []) 0 false
        = "\x7b\n  a?: _\n\x7d" :=
  ⟨List.cons_ne_nil _ _,
   c6_object_field_rendering.1 [("a", Json.null)] [] 0 false
     (List.cons_ne_nil _ _)⟩

/-- Counterexample to claim C1: each document is compiled with its own
fresh name registry, so a batch of two documents each holding an operation
summarized "Get User" yields the concatenated name list GetUser, GetUser,
which is not pairwise distinct. -/
theorem c1_batch_names_collide :
    ((batch_ops getUserDoc getUserDoc).map (fun l => l.map Operation.name)
        = Except.ok ["GetUser", "GetUser"])
    ∧ ¬ (["GetUser", "GetUser"] : List String).Pairwise (fun a b => a ≠ b) :=
  ⟨rfl, by decide⟩

/-- Claim C1 (amended): the name registry is created empty once per
document, not shared across the batch, so uniqueness holds only among
occurrences of one base name within one document: a fresh base name is
returned unchanged and registered, a seen base name returns base followed
by counter+1, which differs from the base, and the occurrence following a
fresh one differs from it; three same-summary operations in one document
yield GetUser, GetUser1, GetUser2. -/
theorem c1_registry_per_document :
    (∀ p m s t (used : List (String × Nat)),
        lookupNat used (base_name p m s) = none →
        (op_name_from p m s t used).1 = base_name p m s
        ∧ (op_name_from p m s t used).2 = used ++ [(base_name p m s, 0)])
    ∧ (∀ p m s t used n, lookupNat used (base_name p m s) = some n →
        (op_name_from p m s t used).1 = base_name p m s ++ toString (n + 1)
        ∧ (op_name_from p m s t used).1 ≠ base_name p m s)
    ∧ (∀ p m s t p' m' s' t' (used : List (String × Nat)),
        base_name p' m' s' = base_name p m s →
        lookupNat used (base_name p m s) = none →
        (op_name_from p' m' s' t' (op_name_from p m s t used).2).1
          ≠ (op_name_from p m s t used).1)
    ∧ ((generate_from_swagger getUserDoc3 "").map
          (fun r => r.2.1.map Operation.name)
        = Except.ok ["GetUser", "GetUser1", "GetUser2"]) := by
  refine ⟨?_, ?_, ?_, rfl⟩
  · intro p m s t used h
    constructor
    · simp [op_name_from, h]
    · simp [op_name_from, h]
  · intro p m s t used n h
    constructor
    · simp [op_name_from, h]
    · simp only [op_name_from, h]
      exact append_toString_ne (base_name p m s) (n + 1)
  · intro p m s t p' m' s' t' used hbase hnone
    have h1 : op_name_from p m s t used
        = (base_name p m s, used ++ [(base_name p m s, 0)]) := by
      simp [op_name_from, hnone]
    rw [h1]
    have h2 : lookupNat (used ++ [(base_name p m s, 0)]) (base_name p' m' s')
        = some 0 := by
      rw [hbase]
      exact lookupNat_append_none hnone 0
    simp only [op_name_from, h2]
    rw [hbase]
    exact append_toString_ne (base_name p m s) 1

/-- Witness for the amended claim C1: a repeated base name in one registry
yields a suffixed name distinct from the first occurrence. -/
theorem c1_registry_per_document_witness :
    (base_name "/b" "get" "Get User" = base_name "/a" "get" "Get User")
    ∧ (lookupNat [] (base_name "/a" "get" "Get User") = none)
    ∧ (op_name_from "/b" "get" "Get User" "api"
        (op_name_from "/a" "get" "Get User" "api" []).2).1
      ≠ (op_name_from "/a" "get" "Get User" "api" []).1 :=
  ⟨rfl, rfl,
   c1_registry_per_document.2.2.1 "/a" "get" "Get User" "api"
     "/b" "get" "Get User" "api" [] rfl rfl⟩

/-- Claim C2 evaluated on the code: a document whose path item carries a
path-level shared "parameters" entry makes the method loop call .get on the
list value and raise AttributeError, while an operation object with no
summary, no parameters, no requestBody and no responses compiles without
raising, to the documented defaults. -/
theorem c2_shared_parameters_entry_raises :
    (generate_from_swagger sharedParamsDoc "" = Except.error "AttributeError")
    ∧ (generate_from_swagger bareOpDoc ""
        = Except.ok ([],
            [{ name := "GetPing", service := "api", input := "\x7b\x7d",
               output := "\x7b\x7d", method := "GET", path := "/ping",
               summary := "", pub := false }], [])) :=
  ⟨rfl, rfl⟩

/-- Counterexample to claim C8: a run in which the domain write succeeds
and the operations write fails leaves exactly one artifact written, which
is neither all four nor none. -/
theorem c8_partial_write_counterexample :
    (main_written (Except.ok emptyDoc) (Except.ok emptyDoc)
        (fun a => decide (a = Artifact.domain)) = [Artifact.domain])
    ∧ [Artifact.domain] ≠ artifact_order
    ∧ [Artifact.domain] ≠ ([] : List Artifact) :=
  ⟨rfl, by decide, by decide⟩

/-- Claim C8 (amended): a parse failure of either document, or a compile
failure of either document, aborts before the first write, so nothing is
written; when every write succeeds, all four artifacts are written; and in
general the written artifacts form a front segment of the fixed order
domain, ops, http, allowlist, because a write failure aborts the run but
keeps the files already written. -/
theorem c8_upstream_abort_and_write_front :
    (∀ e (d2 : Except String Json) (w : Artifact → Bool),
        main_written (Except.error e) d2 w = [])
    ∧ (∀ (d1 : Json) e (w : Artifact → Bool),
        main_written (Except.ok d1) (Except.error e) w = [])
    ∧ (∀ (d1 d2 : Json) (w : Artifact → Bool) e,
        generate_from_swagger d1 "" = Except.error e →
        main_written (Except.ok d1) (Except.ok d2) w = [])
    ∧ (∀ (d1 d2 : Json) (w : Artifact → Bool) g1 e,
        generate_from_swagger d1 "" = Except.ok g1 →
        generate_from_swagger d2 "search" = Except.error e →
        main_written (Except.ok d1) (Except.ok d2) w = [])
    ∧ (∀ (d1 d2 : Json) g1 g2,
        generate_from_swagger d1 "" = Except.ok g1 →
        generate_from_swagger d2 "search" = Except.ok g2 →
        main_written (Except.ok d1) (Except.ok d2) (fun _ => true)
          = artifact_order)
    ∧ (∀ (doc1 doc2 : Except String Json) (w : Artifact → Bool),
        ∃ r, main_written doc1 doc2 w ++ r = artifact_order) := by
  refine ⟨fun e d2 w => rfl, fun d1 e w => rfl, ?_, ?_, ?_, ?_⟩
  · intro d1 d2 w e h
    simp [main_written, h]
  · intro d1 d2 w g1 e h1 h2
    simp [main_written, h1, h2]
  · intro d1 d2 g1 g2 h1 h2
    simp [main_written, h1, h2, write_seq, artifact_order]
  · intro doc1 doc2 w
    cases doc1 with
    | error e => exact ⟨artifact_order, rfl⟩
    | ok d1 =>
      cases doc2 with
      | error e => exact ⟨artifact_order, rfl⟩
      | ok d2 =>
        cases hg1 : generate_from_swagger d1 "" with
        | error e =>
          refine ⟨artifact_order, ?_⟩
          simp [main_written, hg1]
        | ok g1 =>
          cases hg2 : generate_from_swagger d2 "search" with
          | error e =>
            refine ⟨artifact_order, ?_⟩
            simp [main_written, hg1, hg2]
          | ok g2 =>
            obtain ⟨r, hr⟩ := write_seq_is_front w artifact_order
            refine ⟨r, ?_⟩
            simp only [main_written, hg1, hg2]
            exact hr

/-- Witness for the amended claim C8: a compile failure of the first
document (a non-mapping top level) writes nothing. -/
theorem c8_upstream_abort_witness :
    (generate_from_swagger (Json.arr []) "" = Except.error "AttributeError")
    ∧ main_written (Except.ok (Json.arr [])) (Except.ok emptyDoc)
        (fun _ => true) = [] :=
  ⟨rfl,
   c8_upstream_abort_and_write_front.2.2.1 (Json.arr []) emptyDoc
     (fun _ => true) "AttributeError" rfl⟩
